import Mathlib

/-!
Shallow embedding of `retrosavesync.py` (class `SaveSync`): the metadata
prober `_get_file_mtime`, the backup snapshotter `_create_monthly_backup`,
the file reconciler `_sync_file` and the tree reconciler `_sync_directory`,
together with theorems about the spec's claims.

Modelling conventions:
* Python exceptions are modelled with `Except`: a `.error` result of
  `sync_file` is an exception that escaped (was not caught inside) the
  function; `create_monthly_backup` catches everything and so is total.
* A path's observable state is a `FileSt`: whether `Path.exists()` reports
  it, its modification time and an abstract content tag, plus a `statErr`
  flag meaning `Path.stat()` raises an OSError other than
  `FileNotFoundError` (e.g. permission denial) when probed.
* `shutil.copy2(src, dst)` raises iff the source is missing, the source
  stat errors, or an injected fault fires; on success it makes `dst` a
  regular file carrying the source's content and mtime (copy2 preserves
  metadata).
* Environmental I/O failures (permission, disk full, ...) at each mutation
  site are modelled by the `Faults` record of injection flags.
* Every live filesystem mutation the code performs is appended to a
  `mutations` journal, so "performs zero filesystem mutations" is the
  statement that the journal does not grow.
* The backup target path `<nas>/<backup_path>/<YYYY-MM>/<emulator>/<rel>`
  is modelled as one boolean cell per relative path (the current month and
  emulator are fixed during one invocation, so the cell stands for the
  computed target of the pair's relative path).
-/

namespace RetroSaveSync

/-- The five counters of `SaveSync.sync_stats`. -/
structure Stats where
  uploaded : Nat
  downloaded : Nat
  skipped : Nat
  errors : Nat
  backed_up : Nat
deriving Repr, DecidableEq

/-- Observable state of one path: what `Path.exists()` returns, the
modification time and content `stat`/`copy2` would see, and whether
`Path.stat()` raises a non-`FileNotFoundError` OSError. -/
structure FileSt where
  file_exists : Bool
  mtime : Int
  content : Nat
  statErr : Bool
deriving Repr, DecidableEq

/-- State of a path where no file is present. -/
def absentFile : FileSt := { file_exists := false, mtime := 0, content := 0, statErr := false }

/-- The configuration fields consumed by the reconciler and the snapshotter:
`dry_run`, `backup.enabled` and `backup.monthly_backups`. -/
structure Config where
  dry_run : Bool
  backup_enabled : Bool
  monthly_backups : Bool
deriving Repr, DecidableEq

/-- Injected environmental I/O failures, one flag per mutation site. -/
structure Faults where
  backup_mkdir_fails : Bool
  backup_copy_fails : Bool
  upload_mkdir_fails : Bool
  upload_copy_fails : Bool
  download_mkdir_fails : Bool
  download_copy_fails : Bool
deriving Repr, DecidableEq

/-- No injected environmental failures. -/
def noFaults : Faults :=
  { backup_mkdir_fails := false, backup_copy_fails := false,
    upload_mkdir_fails := false, upload_copy_fails := false,
    download_mkdir_fails := false, download_copy_fails := false }

/-- Journal entries, one per filesystem mutation the code can perform. -/
inductive Mut where
  | mkdirBackup
  | copyBackup
  | mkdirNas
  | copyUpload
  | mkdirLocal
  | copyDownload
deriving Repr, DecidableEq

/-- The state a single `_sync_file` invocation can observe and mutate:
the local file, the NAS file, the backup target cell for this pair,
the statistics record and the mutation journal. -/
structure World where
  local_file : FileSt
  nas_file : FileSt
  backup_file_exists : Bool
  stats : Stats
  mutations : List Mut
deriving Repr, DecidableEq

/-- `SaveSync._get_file_mtime`: returns `stat().st_mtime`, catching only
`FileNotFoundError` (which yields the sentinel `0`); any other OSError
propagates to the caller. -/
def get_file_mtime (p : FileSt) : Except Unit Int :=
  if p.statErr then .error ()
  else if p.file_exists then .ok p.mtime
  else .ok 0

/-- Python truthiness of the `emulator : Optional[str]` argument:
`None` and the empty string are falsy. -/
def emulatorTruthy : Option String → Bool
  | none => false
  | some s => s != ""

/-- `SaveSync._create_monthly_backup nas_file emulator`, acting on the
`World` whose `nas_file` is the file being backed up.  Returns the
`created` boolean and the updated world; all exceptions inside its try
block are caught, so it never raises. -/
def create_monthly_backup (cfg : Config) (f : Faults) (emulator : String) (w : World) :
    Bool × World :=
  if !cfg.backup_enabled || !cfg.monthly_backups then (false, w)
  else if !w.nas_file.file_exists then (false, w)
  else if emulator == "" then (false, w)
  else if w.backup_file_exists then (false, w)
  else if cfg.dry_run then
    (true, { w with stats := { w.stats with backed_up := w.stats.backed_up + 1 } })
  else if f.backup_mkdir_fails then (false, w)
  else
    let w1 := { w with mutations := w.mutations ++ [Mut.mkdirBackup] }
    if w.nas_file.statErr || f.backup_copy_fails then (false, w1)
    else
      (true, { w1 with
        backup_file_exists := true,
        mutations := w1.mutations ++ [Mut.copyBackup],
        stats := { w1.stats with backed_up := w1.stats.backed_up + 1 } })

/-- The try block of `SaveSync._sync_file` (lines 179-209), run with an
already-resolved direction string: performs the backup call, the
directory creation and the copy, catching any exception into the
`errors` counter.  Returns the function's boolean result and the
updated world; never raises. -/
def sync_execute (cfg : Config) (f : Faults) (emulator : Option String)
    (direction : String) (w : World) : Bool × World :=
  if direction == "upload" then
    let wb :=
      if w.nas_file.file_exists && emulatorTruthy emulator then
        (create_monthly_backup cfg f (emulator.getD "") w).2
      else w
    if cfg.dry_run then
      (true, { wb with stats := { wb.stats with uploaded := wb.stats.uploaded + 1 } })
    else if f.upload_mkdir_fails then
      (false, { wb with stats := { wb.stats with errors := wb.stats.errors + 1 } })
    else
      let w2 := { wb with mutations := wb.mutations ++ [Mut.mkdirNas] }
      if !w2.local_file.file_exists || w2.local_file.statErr || f.upload_copy_fails then
        (false, { w2 with stats := { w2.stats with errors := w2.stats.errors + 1 } })
      else
        (true, { w2 with
          nas_file := { file_exists := true, mtime := w2.local_file.mtime,
                        content := w2.local_file.content, statErr := false },
          mutations := w2.mutations ++ [Mut.copyUpload],
          stats := { w2.stats with uploaded := w2.stats.uploaded + 1 } })
  else if direction == "download" then
    if cfg.dry_run then
      (true, { w with stats := { w.stats with downloaded := w.stats.downloaded + 1 } })
    else if f.download_mkdir_fails then
      (false, { w with stats := { w.stats with errors := w.stats.errors + 1 } })
    else
      let w2 := { w with mutations := w.mutations ++ [Mut.mkdirLocal] }
      if !w2.nas_file.file_exists || w2.nas_file.statErr || f.download_copy_fails then
        (false, { w2 with stats := { w2.stats with errors := w2.stats.errors + 1 } })
      else
        (true, { w2 with
          local_file := { file_exists := true, mtime := w2.nas_file.mtime,
                          content := w2.nas_file.content, statErr := false },
          mutations := w2.mutations ++ [Mut.copyDownload],
          stats := { w2.stats with downloaded := w2.stats.downloaded + 1 } })
  else (false, w)

/-- `SaveSync._sync_file local_path nas_path direction emulator`.
A `.error` result is an exception escaping the function (the only
uncaught raise site is the mtime probe, which runs before any
mutation, so the carried world equals the input world). -/
def sync_file (cfg : Config) (f : Faults) (direction : String)
    (emulator : Option String) (w : World) : Except World (Bool × World) :=
  if !w.local_file.file_exists && !w.nas_file.file_exists then .ok (false, w)
  else if direction == "auto" then
    if !w.nas_file.file_exists then .ok (sync_execute cfg f emulator "upload" w)
    else if !w.local_file.file_exists then .ok (sync_execute cfg f emulator "download" w)
    else
      match get_file_mtime w.local_file, get_file_mtime w.nas_file with
      | .ok local_mtime, .ok nas_mtime =>
        if local_mtime > nas_mtime then .ok (sync_execute cfg f emulator "upload" w)
        else if nas_mtime > local_mtime then .ok (sync_execute cfg f emulator "download" w)
        else .ok (false, { w with stats := { w.stats with skipped := w.stats.skipped + 1 } })
      | _, _ => .error w
  else .ok (sync_execute cfg f emulator direction w)

/-- The characters of the final component of a relative path (Python
`Path.name`; the enumerated relative paths never end in a slash). -/
def pathNameChars (p : String) : List Char :=
  p.data.foldl (fun acc c => if c = '/' then [] else acc ++ [c]) []

/-- Python `Path.suffix`: the extension of the final component including
the leading dot, empty when the last dot is the first character of the
name, the last character of the name, or absent. -/
def pathSuffix (p : String) : String :=
  let name := pathNameChars p
  let n := name.length
  match name.reverse.findIdx? (fun c => c == '.') with
  | none => ""
  | some r =>
    let i := n - 1 - r
    if 0 < i && i < n - 1 then ⟨name.drop i⟩ else ""

/-- Python `str.lower()` restricted to its ASCII action (the extension
lists this tool handles are ASCII). -/
def lowerStr (s : String) : String := ⟨s.data.map Char.toLower⟩

/-- The per-file filter of `_sync_directory`:
`extensions is None or file_path.suffix.lower() in extensions`. -/
def extOk (extensions : Option (List String)) (rel : String) : Bool :=
  match extensions with
  | none => true
  | some exts => decide (lowerStr (pathSuffix rel) ∈ exts)

/-- One side of a directory pair: whether the root directory exists and
the regular files of its subtree, keyed by relative path. -/
structure DirSide where
  dir_exists : Bool
  files : List (String × FileSt)
deriving Repr, DecidableEq

/-- Relative paths one side contributes: nothing when the root is missing,
otherwise the regular files passing the recursion and extension filters
(`rglob` takes the whole subtree, `glob` only depth-one entries). -/
def enumSide (side : DirSide) (recursive : Bool) (extensions : Option (List String)) :
    List String :=
  if !side.dir_exists then []
  else ((side.files.filter (fun e =>
    (recursive || !e.1.contains '/') && extOk extensions e.1)).map Prod.fst)

/-- Insert a string into a list before the first element not smaller
than it. -/
def insort (a : String) : List String → List String
  | [] => [a]
  | b :: l => if a ≤ b then a :: b :: l else b :: insort a l

/-- Insertion sort by the code-point order on strings; `sorted` in Python
compares `PosixPath` objects by their string form, so this is the order
of the tree walk. -/
def sortStrings : List String → List String
  | [] => []
  | a :: l => insort a (sortStrings l)

/-- The whole state `_sync_directory` acts on: both sides, the backup
target cells (the set of relative paths whose monthly backup target
already exists), the statistics and the mutation journal. -/
structure DirWorld where
  local_side : DirSide
  nas_side : DirSide
  backup_exists : List String
  stats : Stats
  mutations : List Mut
deriving Repr, DecidableEq

/-- `sorted(local_files | nas_files)`: the deduplicated, sorted union of
relative paths enumerated under both roots. -/
def all_files (dw : DirWorld) (recursive : Bool) (extensions : Option (List String)) :
    List String :=
  sortStrings ((enumSide dw.local_side recursive extensions ++
    enumSide dw.nas_side recursive extensions).dedup)

/-- The file state a side holds at a relative path (absent when the path
has no entry). -/
def lookupFile (files : List (String × FileSt)) (rel : String) : FileSt :=
  match files with
  | [] => absentFile
  | e :: rest => if e.1 = rel then e.2 else lookupFile rest rel

/-- Replace the entry at a key, or append one when the key is new. -/
def setFile (files : List (String × FileSt)) (rel : String) (fs : FileSt) :
    List (String × FileSt) :=
  if files.any (fun e => decide (e.1 = rel)) then
    files.map (fun e => if e.1 = rel then (rel, fs) else e)
  else files ++ [(rel, fs)]

/-- Write a file state back into a side, leaving the list untouched when
the state did not change. -/
def setFileIfChanged (files : List (String × FileSt)) (rel : String) (fs : FileSt) :
    List (String × FileSt) :=
  if lookupFile files rel = fs then files else setFile files rel fs

/-- The `World` a `_sync_file` call on the pair at `rel` observes. -/
def pairWorld (dw : DirWorld) (rel : String) : World :=
  { local_file := lookupFile dw.local_side.files rel,
    nas_file := lookupFile dw.nas_side.files rel,
    backup_file_exists := decide (rel ∈ dw.backup_exists),
    stats := dw.stats,
    mutations := dw.mutations }

/-- Fold the world a `_sync_file` call produced back into the directory
state (only the pair's own cells can have changed). -/
def writeBack (dw : DirWorld) (rel : String) (w : World) : DirWorld :=
  { dw with
    local_side := { dw.local_side with
      files := setFileIfChanged dw.local_side.files rel w.local_file },
    nas_side := { dw.nas_side with
      files := setFileIfChanged dw.nas_side.files rel w.nas_file },
    backup_exists :=
      if w.backup_file_exists ∧ rel ∉ dw.backup_exists then
        dw.backup_exists ++ [rel]
      else dw.backup_exists,
    stats := w.stats,
    mutations := w.mutations }

/-- The spec's Sync Outcome vocabulary, derived from which counter an
invocation incremented (`noop` when none did). -/
inductive Outcome where
  | uploaded
  | downloaded
  | skipped
  | backedUp
  | errored
  | noop
deriving Repr, DecidableEq

/-- Classify an invocation by the counter it incremented. -/
def classifyDelta (s t : Stats) : Outcome :=
  if t.errors > s.errors then .errored
  else if t.uploaded > s.uploaded then .uploaded
  else if t.downloaded > s.downloaded then .downloaded
  else if t.skipped > s.skipped then .skipped
  else if t.backed_up > s.backed_up then .backedUp
  else .noop

/-- The per-path loop of `_sync_directory`: drive `_sync_file` with Auto
direction over the given relative paths, threading the directory state
and recording an `Outcome` per processed path.  An exception escaping
`_sync_file` escapes the loop too (the call site is not inside a try
block), carried as `.error` with the state at the raise. -/
def sync_walk (cfg : Config) (ff : String → Faults) (emulator : Option String) :
    List String → DirWorld → Except DirWorld (List (String × Outcome) × DirWorld)
  | [], dw => .ok ([], dw)
  | rel :: rest, dw =>
    match sync_file cfg (ff rel) "auto" emulator (pairWorld dw rel) with
    | .error _ => .error dw
    | .ok (_, w) =>
      let dw1 := writeBack dw rel w
      match sync_walk cfg ff emulator rest dw1 with
      | .error d => .error d
      | .ok (tr, d) => .ok ((rel, classifyDelta dw.stats w.stats) :: tr, d)

/-- `SaveSync._sync_directory local_dir nas_dir recursive extensions emulator`:
enumerate both sides, sort the union of relative paths, and reconcile
each pair in order. -/
def sync_directory (cfg : Config) (ff : String → Faults) (recursive : Bool)
    (extensions : Option (List String)) (emulator : Option String) (dw : DirWorld) :
    Except DirWorld (List (String × Outcome) × DirWorld) :=
  sync_walk cfg ff emulator (all_files dw recursive extensions) dw

/-- The statistics record a `_sync_file` invocation left behind, whether
or not it raised. -/
def resultStats (r : Except World (Bool × World)) : Stats :=
  match r with
  | .error w1 => w1.stats
  | .ok (_, w1) => w1.stats

/-! ## Frame lemmas about the snapshotter -/

/-- The snapshotter only touches the backup cell, the `backed_up` counter
and the journal: the two files, the four other counters are preserved,
and `backed_up` grows by at most one. -/
theorem create_monthly_backup_frame (cfg : Config) (f : Faults) (em : String) (w : World) :
    let w1 := (create_monthly_backup cfg f em w).2
    w1.local_file = w.local_file ∧ w1.nas_file = w.nas_file ∧
    w1.stats.uploaded = w.stats.uploaded ∧ w1.stats.downloaded = w.stats.downloaded ∧
    w1.stats.skipped = w.stats.skipped ∧ w1.stats.errors = w.stats.errors ∧
    (w1.stats.backed_up = w.stats.backed_up ∨ w1.stats.backed_up = w.stats.backed_up + 1) := by
  unfold create_monthly_backup
  split_ifs <;> simp

/-- **C2.** A pair where both sides exist with exactly equal modification
times is skipped in Auto direction: the result is `False` (no sync),
the skip counter increments by one, no other counter moves, and the
files, the backup cell and the mutation journal are untouched. -/
theorem c2_equal_mtimes_skipped (cfg : Config) (f : Faults) (em : Option String) (w : World)
    (hl : w.local_file.file_exists = true) (hn : w.nas_file.file_exists = true)
    (hls : w.local_file.statErr = false) (hns : w.nas_file.statErr = false)
    (heq : w.local_file.mtime = w.nas_file.mtime) :
    sync_file cfg f "auto" em w =
      .ok (false, { w with stats := { w.stats with skipped := w.stats.skipped + 1 } }) := by
  simp [sync_file, get_file_mtime, hl, hn, hls, hns, heq]

/-- Witness for C2 at a concrete pair with equal timestamps. -/
theorem c2_equal_mtimes_skipped_witness :
    sync_file ⟨false, true, true⟩ noFaults "auto" (some "PCSX2")
        ⟨⟨true, 5, 1, false⟩, ⟨true, 5, 2, false⟩, false, ⟨0, 0, 0, 0, 0⟩, []⟩ =
      .ok (false, ⟨⟨true, 5, 1, false⟩, ⟨true, 5, 2, false⟩, false, ⟨0, 0, 1, 0, 0⟩, []⟩) :=
  c2_equal_mtimes_skipped ⟨false, true, true⟩ noFaults (some "PCSX2")
    ⟨⟨true, 5, 1, false⟩, ⟨true, 5, 2, false⟩, false, ⟨0, 0, 0, 0, 0⟩, []⟩
    rfl rfl rfl rfl rfl

/-- **C1 (counterexample).** A probe error distinct from not-found during
the Auto mtime lookup is not converted into an Errored outcome: the
exception escapes `_sync_file` (`.error` result) and the error counter
stays at zero, contrary to the claim. -/
theorem c1_probe_error_counterexample :
    sync_file ⟨false, true, true⟩ noFaults "auto" (some "PCSX2")
        ⟨⟨true, 5, 1, false⟩, ⟨true, 3, 2, true⟩, false, ⟨0, 0, 0, 0, 0⟩, []⟩ =
      .error ⟨⟨true, 5, 1, false⟩, ⟨true, 3, 2, true⟩, false, ⟨0, 0, 0, 0, 0⟩, []⟩ ∧
    (resultStats (sync_file ⟨false, true, true⟩ noFaults "auto" (some "PCSX2")
        ⟨⟨true, 5, 1, false⟩, ⟨true, 3, 2, true⟩, false, ⟨0, 0, 0, 0, 0⟩, []⟩)).errors = 0 := by
  constructor <;> rfl

/-- **C1 (amended).** When both sides exist and the mtime probe of either
side fails with an I/O error other than not-found, the exception
propagates out of `_sync_file` with the world unchanged: no counter is
incremented and the pair is not classified at all. -/
theorem c1_probe_error_escapes (cfg : Config) (f : Faults) (em : Option String) (w : World)
    (hl : w.local_file.file_exists = true) (hn : w.nas_file.file_exists = true)
    (herr : w.local_file.statErr = true ∨ w.nas_file.statErr = true) :
    sync_file cfg f "auto" em w = .error w := by
  rcases herr with h | h <;> simp [sync_file, get_file_mtime, hl, hn, h]

/-- Witness for the amended C1 at a concrete pair. -/
theorem c1_probe_error_escapes_witness :
    sync_file ⟨false, true, true⟩ noFaults "auto" none
        ⟨⟨true, 9, 1, true⟩, ⟨true, 3, 2, false⟩, false, ⟨0, 0, 0, 0, 0⟩, []⟩ =
      .error ⟨⟨true, 9, 1, true⟩, ⟨true, 3, 2, false⟩, false, ⟨0, 0, 0, 0, 0⟩, []⟩ :=
  c1_probe_error_escapes ⟨false, true, true⟩ noFaults none
    ⟨⟨true, 9, 1, true⟩, ⟨true, 3, 2, false⟩, false, ⟨0, 0, 0, 0, 0⟩, []⟩
    rfl rfl (Or.inl rfl)

/-- **C4.** Monthly backup deduplication: in live mode, a snapshotter
invocation that reports `created = true` has materialized the target
file (one mkdir and one copy in the journal, `backed_up` up by one),
and a second invocation for the same (group, month, relative path)
target finds the file already existing and is a strict no-op returning
`false`. -/
theorem c4_backup_dedup (cfg : Config) (f : Faults) (em : String) (w w1 : World)
    (hdry : cfg.dry_run = false)
    (h1 : create_monthly_backup cfg f em w = (true, w1)) :
    w1.backup_file_exists = true ∧
    w1.mutations = w.mutations ++ [Mut.mkdirBackup, Mut.copyBackup] ∧
    w1.stats.backed_up = w.stats.backed_up + 1 ∧
    create_monthly_backup cfg f em w1 = (false, w1) := by
  unfold create_monthly_backup at h1
  split_ifs at h1 <;> simp_all [create_monthly_backup]
  subst h1
  simp_all

/-- Witness for C4: one concrete live snapshot followed by its dedup no-op. -/
theorem c4_backup_dedup_witness :
    let w : World := ⟨absentFile, ⟨true, 5, 7, false⟩, false, ⟨0, 0, 0, 0, 0⟩, []⟩
    let w1 : World := ⟨absentFile, ⟨true, 5, 7, false⟩, true, ⟨0, 0, 0, 0, 1⟩,
      [Mut.mkdirBackup, Mut.copyBackup]⟩
    w1.backup_file_exists = true ∧
    w1.mutations = w.mutations ++ [Mut.mkdirBackup, Mut.copyBackup] ∧
    w1.stats.backed_up = w.stats.backed_up + 1 ∧
    create_monthly_backup ⟨false, true, true⟩ noFaults "PCSX2" w1 = (false, w1) :=
  c4_backup_dedup ⟨false, true, true⟩ noFaults "PCSX2"
    ⟨absentFile, ⟨true, 5, 7, false⟩, false, ⟨0, 0, 0, 0, 0⟩, []⟩
    ⟨absentFile, ⟨true, 5, 7, false⟩, true, ⟨0, 0, 0, 0, 1⟩,
      [Mut.mkdirBackup, Mut.copyBackup]⟩
    rfl (by decide)

/-- **C7.** Auto resolution on a pair with exactly one side present:
remote absent resolves to upload, local absent resolves to download,
and (absent injected faults) the sync succeeds and bumps exactly the
corresponding counter by one. -/
theorem c7_one_side_absent (cfg : Config) (em : Option String) (w : World) :
    (w.local_file.file_exists = true → w.local_file.statErr = false →
     w.nas_file.file_exists = false →
      ∃ w1, sync_file cfg noFaults "auto" em w = .ok (true, w1) ∧
        w1.stats = { w.stats with uploaded := w.stats.uploaded + 1 }) ∧
    (w.local_file.file_exists = false → w.nas_file.file_exists = true →
     w.nas_file.statErr = false →
      ∃ w1, sync_file cfg noFaults "auto" em w = .ok (true, w1) ∧
        w1.stats = { w.stats with downloaded := w.stats.downloaded + 1 }) := by
  constructor
  · intro hl hls hn
    by_cases hd : cfg.dry_run <;>
      simp [sync_file, sync_execute, noFaults, hl, hls, hn, hd]
  · intro hl hn hns
    by_cases hd : cfg.dry_run <;>
      simp [sync_file, sync_execute, noFaults, hl, hn, hns, hd]

/-- Witness for C7: both directions at concrete one-sided pairs. -/
theorem c7_one_side_absent_witness :
    (∃ w1, sync_file ⟨false, true, true⟩ noFaults "auto" (some "PCSX2")
        ⟨⟨true, 5, 1, false⟩, absentFile, false, ⟨0, 0, 0, 0, 0⟩, []⟩ = .ok (true, w1) ∧
      w1.stats = ⟨1, 0, 0, 0, 0⟩) ∧
    (∃ w1, sync_file ⟨false, true, true⟩ noFaults "auto" (some "PCSX2")
        ⟨absentFile, ⟨true, 5, 1, false⟩, false, ⟨0, 0, 0, 0, 0⟩, []⟩ = .ok (true, w1) ∧
      w1.stats = ⟨0, 1, 0, 0, 0⟩) :=
  ⟨(c7_one_side_absent ⟨false, true, true⟩ (some "PCSX2")
      ⟨⟨true, 5, 1, false⟩, absentFile, false, ⟨0, 0, 0, 0, 0⟩, []⟩).1 rfl rfl rfl,
   (c7_one_side_absent ⟨false, true, true⟩ (some "PCSX2")
      ⟨absentFile, ⟨true, 5, 1, false⟩, false, ⟨0, 0, 0, 0, 0⟩, []⟩).2 rfl rfl rfl⟩

/-- **C8.** A snapshotter failure (I/O error at its mkdir or its copy)
before an upload that overwrites an existing remote file is absorbed at
the snapshotter boundary: the upload still runs, the result counts as
Uploaded with every other counter (including `backed_up`) unchanged,
and nothing is raised. -/
theorem c8_backup_failure_upload_proceeds (cfg : Config) (f : Faults) (em : String) (w : World)
    (hdry : cfg.dry_run = false)
    (hen : cfg.backup_enabled = true) (hmo : cfg.monthly_backups = true)
    (hem : em ≠ "")
    (hl : w.local_file.file_exists = true) (hls : w.local_file.statErr = false)
    (hn : w.nas_file.file_exists = true) (hns : w.nas_file.statErr = false)
    (hbk : w.backup_file_exists = false)
    (hbf : f.backup_mkdir_fails = true ∨ f.backup_copy_fails = true)
    (hum : f.upload_mkdir_fails = false) (huc : f.upload_copy_fails = false) :
    ∃ w1, sync_file cfg f "upload" (some em) w = .ok (true, w1) ∧
      w1.stats = { w.stats with uploaded := w.stats.uploaded + 1 } ∧
      w1.backup_file_exists = false ∧
      w1.nas_file = ⟨true, w.local_file.mtime, w.local_file.content, false⟩ := by
  rcases hbf with hb | hb <;>
    by_cases hb2 : f.backup_mkdir_fails <;>
      simp_all [sync_file, sync_execute, create_monthly_backup, emulatorTruthy,
        hdry, hen, hmo, hem, hl, hls, hn, hns, hbk, hum, huc]

/-- Witness for C8 at a concrete pair with a failing backup copy. -/
theorem c8_backup_failure_upload_proceeds_witness :
    ∃ w1, sync_file ⟨false, true, true⟩
        ⟨false, true, false, false, false, false⟩ "upload" (some "PCSX2")
        ⟨⟨true, 9, 4, false⟩, ⟨true, 3, 2, false⟩, false, ⟨0, 0, 0, 0, 0⟩, []⟩ =
        .ok (true, w1) ∧
      w1.stats = ⟨1, 0, 0, 0, 0⟩ ∧
      w1.backup_file_exists = false ∧
      w1.nas_file = ⟨true, 9, 4, false⟩ :=
  c8_backup_failure_upload_proceeds ⟨false, true, true⟩
    ⟨false, true, false, false, false, false⟩ "PCSX2"
    ⟨⟨true, 9, 4, false⟩, ⟨true, 3, 2, false⟩, false, ⟨0, 0, 0, 0, 0⟩, []⟩
    rfl rfl rfl (by decide) rfl rfl rfl rfl rfl (Or.inr rfl) rfl rfl

/-- **C10.** Forced upload with the local file absent and the remote file
present, group supplied, live mode: the snapshotter is still invoked on
the remote file first (its effects on `backed_up`, the backup cell and
the journal are retained), the NAS parent mkdir runs, and then the copy
fails on the missing source: the pair ends Errored (+1), `uploaded` is
unchanged and the remote file is untouched. -/
theorem c10_forced_upload_missing_local (cfg : Config) (em : String) (w : World)
    (hem : em ≠ "") (hdry : cfg.dry_run = false)
    (hl : w.local_file.file_exists = false)
    (hn : w.nas_file.file_exists = true) (hns : w.nas_file.statErr = false) :
    ∃ w1, sync_file cfg noFaults "upload" (some em) w = .ok (false, w1) ∧
      w1.stats.errors = w.stats.errors + 1 ∧
      w1.stats.uploaded = w.stats.uploaded ∧
      w1.stats.downloaded = w.stats.downloaded ∧
      w1.stats.skipped = w.stats.skipped ∧
      w1.nas_file = w.nas_file ∧ w1.local_file = w.local_file ∧
      w1.stats.backed_up = ((create_monthly_backup cfg noFaults em w).2).stats.backed_up ∧
      w1.backup_file_exists = ((create_monthly_backup cfg noFaults em w).2).backup_file_exists ∧
      w1.mutations = ((create_monthly_backup cfg noFaults em w).2).mutations ++ [Mut.mkdirNas] := by
  obtain ⟨hbl, hbn, hbu, hbd, hbs, hbe, hbb⟩ := create_monthly_backup_frame cfg noFaults em w
  simp only [noFaults] at hbl hbn hbu hbd hbs hbe hbb ⊢
  simp [sync_file, sync_execute, emulatorTruthy, hem, hn, hdry, hl,
    hbl, hbn, hbu, hbd, hbs, hbe]

/-- Witness for C10 at a concrete pair with backups enabled. -/
theorem c10_forced_upload_missing_local_witness :
    ∃ w1, sync_file ⟨false, true, true⟩ noFaults "upload" (some "PCSX2")
        ⟨absentFile, ⟨true, 3, 2, false⟩, false, ⟨0, 0, 0, 0, 0⟩, []⟩ = .ok (false, w1) ∧
      w1.stats.errors = 1 ∧
      w1.stats.uploaded = 0 ∧
      w1.stats.downloaded = 0 ∧
      w1.stats.skipped = 0 ∧
      w1.nas_file = ⟨true, 3, 2, false⟩ ∧ w1.local_file = absentFile ∧
      w1.stats.backed_up = ((create_monthly_backup ⟨false, true, true⟩ noFaults "PCSX2"
        ⟨absentFile, ⟨true, 3, 2, false⟩, false, ⟨0, 0, 0, 0, 0⟩, []⟩).2).stats.backed_up ∧
      w1.backup_file_exists = ((create_monthly_backup ⟨false, true, true⟩ noFaults "PCSX2"
        ⟨absentFile, ⟨true, 3, 2, false⟩, false, ⟨0, 0, 0, 0, 0⟩, []⟩).2).backup_file_exists ∧
      w1.mutations = ((create_monthly_backup ⟨false, true, true⟩ noFaults "PCSX2"
        ⟨absentFile, ⟨true, 3, 2, false⟩, false, ⟨0, 0, 0, 0, 0⟩, []⟩).2).mutations ++
          [Mut.mkdirNas] :=
  c10_forced_upload_missing_local ⟨false, true, true⟩ "PCSX2"
    ⟨absentFile, ⟨true, 3, 2, false⟩, false, ⟨0, 0, 0, 0, 0⟩, []⟩
    (by decide) rfl rfl rfl rfl

/-- Stats bounds for the executor: `skipped` is untouched, every counter
grows by at most one, and at most one of `uploaded`, `downloaded`,
`errors` grows. -/
theorem sync_execute_stats_frame (cfg : Config) (f : Faults) (em : Option String)
    (d : String) (w : World) :
    let t := ((sync_execute cfg f em d w).2).stats
    let s := w.stats
    s.uploaded ≤ t.uploaded ∧ t.uploaded ≤ s.uploaded + 1 ∧
    s.downloaded ≤ t.downloaded ∧ t.downloaded ≤ s.downloaded + 1 ∧
    t.skipped = s.skipped ∧
    s.errors ≤ t.errors ∧ t.errors ≤ s.errors + 1 ∧
    s.backed_up ≤ t.backed_up ∧ t.backed_up ≤ s.backed_up + 1 ∧
    (t.uploaded - s.uploaded) + (t.downloaded - s.downloaded) + (t.errors - s.errors) ≤ 1 := by
  have hfr := create_monthly_backup_frame cfg f (em.getD "") w
  simp only at hfr
  unfold sync_execute
  dsimp only
  split_ifs <;> simp_all <;> omega

/-- **C9 (amended).** Per invocation of the reconciler, every counter is
monotone and grows by at most one, and at most one of the four
file-level counters (`uploaded`, `downloaded`, `skipped`, `errors`)
grows — whether the invocation returns or raises.  (`backed_up` may
additionally grow when a snapshot is taken before an upload; the
no-op cases increment nothing.) -/
theorem c9_stats_monotone (cfg : Config) (f : Faults) (d : String)
    (em : Option String) (w : World) :
    let s := w.stats
    let t := resultStats (sync_file cfg f d em w)
    (s.uploaded ≤ t.uploaded ∧ t.uploaded ≤ s.uploaded + 1) ∧
    (s.downloaded ≤ t.downloaded ∧ t.downloaded ≤ s.downloaded + 1) ∧
    (s.skipped ≤ t.skipped ∧ t.skipped ≤ s.skipped + 1) ∧
    (s.errors ≤ t.errors ∧ t.errors ≤ s.errors + 1) ∧
    (s.backed_up ≤ t.backed_up ∧ t.backed_up ≤ s.backed_up + 1) ∧
    (t.uploaded - s.uploaded) + (t.downloaded - s.downloaded) +
      (t.skipped - s.skipped) + (t.errors - s.errors) ≤ 1 := by
  have h1 := sync_execute_stats_frame cfg f em "upload" w
  have h2 := sync_execute_stats_frame cfg f em "download" w
  have h3 := sync_execute_stats_frame cfg f em d w
  simp only at h1 h2 h3
  unfold sync_file
  split_ifs <;> (try split) <;> (try split_ifs) <;> simp_all [resultStats]

/-- **C9 (counterexample).** An invocation on a pair where neither side
exists produces no Sync Outcome at all: no counter is incremented, so
it is not the case that exactly one of the five outcomes is produced
per invocation. -/
theorem c9_no_outcome_counterexample :
    sync_file ⟨false, true, true⟩ noFaults "auto" (some "PCSX2")
        ⟨absentFile, absentFile, false, ⟨0, 0, 0, 0, 0⟩, []⟩ =
      .ok (false, ⟨absentFile, absentFile, false, ⟨0, 0, 0, 0, 0⟩, []⟩) := rfl

/-! ## Lemmas about sides, lookups and the sorted union -/

theorem lookupFile_map_set_ne {files : List (String × FileSt)} {rel rel' : String}
    {fs : FileSt} (h : rel' ≠ rel) :
    lookupFile (files.map (fun e => if e.1 = rel then (rel, fs) else e)) rel' =
      lookupFile files rel' := by
  induction files with
  | nil => rfl
  | cons e l ih =>
    by_cases he : e.1 = rel <;> by_cases he2 : e.1 = rel' <;>
      simp_all [lookupFile, Ne.symm h]

theorem lookupFile_append_single_ne {files : List (String × FileSt)} {rel rel' : String}
    {fs : FileSt} (h : rel' ≠ rel) :
    lookupFile (files ++ [(rel, fs)]) rel' = lookupFile files rel' := by
  induction files with
  | nil => simp [lookupFile, Ne.symm h]
  | cons e l ih =>
    by_cases he2 : e.1 = rel' <;> simp_all [lookupFile]

theorem lookupFile_setFile_ne (files : List (String × FileSt)) (rel rel' : String)
    (fs : FileSt) (h : rel' ≠ rel) :
    lookupFile (setFile files rel fs) rel' = lookupFile files rel' := by
  unfold setFile
  split_ifs
  · exact lookupFile_map_set_ne h
  · exact lookupFile_append_single_ne h

theorem lookupFile_setFileIfChanged_ne (files : List (String × FileSt)) (rel rel' : String)
    (fs : FileSt) (h : rel' ≠ rel) :
    lookupFile (setFileIfChanged files rel fs) rel' = lookupFile files rel' := by
  unfold setFileIfChanged
  split_ifs with h1
  · rfl
  · exact lookupFile_setFile_ne files rel rel' fs h

/-- For a pair the walk has not yet processed, a write-back at a different
key changes only the statistics and journal components of its world. -/
theorem pairWorld_writeBack_ne (dw : DirWorld) (rel rel' : String) (w : World)
    (h : rel' ≠ rel) :
    pairWorld (writeBack dw rel w) rel' =
      { pairWorld dw rel' with stats := w.stats, mutations := w.mutations } := by
  unfold pairWorld writeBack
  simp only
  rw [lookupFile_setFileIfChanged_ne _ _ _ _ h, lookupFile_setFileIfChanged_ne _ _ _ _ h]
  split_ifs with h1
  · simp [h]
  · rfl

theorem insort_perm (a : String) (l : List String) : (insort a l).Perm (a :: l) := by
  induction l with
  | nil => exact List.Perm.refl _
  | cons b l ih =>
    unfold insort
    split_ifs
    · exact List.Perm.refl _
    · exact (ih.cons b).trans (List.Perm.swap a b l)

theorem sortStrings_perm (l : List String) : (sortStrings l).Perm l := by
  induction l with
  | nil => exact List.Perm.refl _
  | cons a l ih => exact (insort_perm a (sortStrings l)).trans (ih.cons a)

theorem mem_sortStrings {a : String} {l : List String} : a ∈ sortStrings l ↔ a ∈ l :=
  (sortStrings_perm l).mem_iff

theorem all_files_nodup (dw : DirWorld) (recursive : Bool)
    (extensions : Option (List String)) : (all_files dw recursive extensions).Nodup :=
  (sortStrings_perm _).symm.nodup (List.nodup_dedup _)

theorem mem_all_files {a : String} {dw : DirWorld} {recursive : Bool}
    {extensions : Option (List String)} :
    a ∈ all_files dw recursive extensions ↔
      a ∈ enumSide dw.local_side recursive extensions ∨
      a ∈ enumSide dw.nas_side recursive extensions := by
  unfold all_files
  rw [mem_sortStrings, List.mem_dedup, List.mem_append]

/-! ## Well-formed sides and totality of the walk -/

/-- A side is well formed when none of its recorded files is in the
transient state where `stat` raises a non-not-found error. -/
def wfFiles (files : List (String × FileSt)) : Prop :=
  ∀ e ∈ files, e.2.statErr = false

def wfDir (dw : DirWorld) : Prop :=
  wfFiles dw.local_side.files ∧ wfFiles dw.nas_side.files

theorem lookupFile_statErr {files : List (String × FileSt)} (h : wfFiles files)
    (rel : String) : (lookupFile files rel).statErr = false := by
  induction files with
  | nil => rfl
  | cons e l ih =>
    unfold lookupFile
    split_ifs
    · exact h e (List.mem_cons_self e l)
    · exact ih fun x hx => h x (List.mem_cons_of_mem e hx)

theorem wfFiles_setFileIfChanged {files : List (String × FileSt)} (h : wfFiles files)
    {rel : String} {fs : FileSt} (hfs : fs.statErr = false) :
    wfFiles (setFileIfChanged files rel fs) := by
  unfold setFileIfChanged setFile
  split_ifs
  · exact h
  · intro e he
    rcases List.mem_map.mp he with ⟨x, hx, hxe⟩
    by_cases hxr : x.1 = rel
    · rw [if_pos hxr] at hxe
      subst hxe
      exact hfs
    · rw [if_neg hxr] at hxe
      subst hxe
      exact h x hx
  · intro e he
    rcases List.mem_append.mp he with he1 | he1
    · exact h e he1
    · rcases List.mem_singleton.mp he1 with rfl
      exact hfs

/-- The executor never turns a `statErr`-free pair into a `statErr` one:
copies write fresh files. -/
theorem sync_execute_statErr (cfg : Config) (f : Faults) (em : Option String)
    (d : String) (w : World)
    (hls : w.local_file.statErr = false) (hns : w.nas_file.statErr = false) :
    ((sync_execute cfg f em d w).2).local_file.statErr = false ∧
    ((sync_execute cfg f em d w).2).nas_file.statErr = false := by
  have hfr := create_monthly_backup_frame cfg f (em.getD "") w
  simp only at hfr
  unfold sync_execute
  dsimp only
  split_ifs <;> simp_all

/-- On a `statErr`-free pair an Auto reconciliation never raises, and the
resulting pair is again `statErr`-free. -/
theorem sync_file_auto_total (cfg : Config) (f : Faults) (em : Option String) (w : World)
    (hls : w.local_file.statErr = false) (hns : w.nas_file.statErr = false) :
    ∃ b w1, sync_file cfg f "auto" em w = .ok (b, w1) ∧
      w1.local_file.statErr = false ∧ w1.nas_file.statErr = false := by
  have h1 := sync_execute_statErr cfg f em "upload" w hls hns
  have h2 := sync_execute_statErr cfg f em "download" w hls hns
  unfold sync_file
  split_ifs <;>
    first
      | exact ⟨false, w, rfl, hls, hns⟩
      | exact ⟨_, _, rfl, h1.1, h1.2⟩
      | exact ⟨_, _, rfl, h2.1, h2.2⟩
      | (simp_all; done)
      | (split <;> (try split_ifs) <;>
          first
            | exact ⟨_, _, rfl, h1.1, h1.2⟩
            | exact ⟨_, _, rfl, h2.1, h2.2⟩
            | exact ⟨false, _, rfl, hls, hns⟩
            | simp_all [get_file_mtime])

/-- On a well-formed directory state the walk processes every relative
path of its list and never propagates an exception, whatever faults are
injected at the copy steps. -/
theorem sync_walk_total (cfg : Config) (ff : String → Faults) (em : Option String)
    (rels : List String) :
    ∀ dw : DirWorld, wfDir dw →
      ∃ tr dw1, sync_walk cfg ff em rels dw = .ok (tr, dw1) ∧
        tr.map Prod.fst = rels ∧ wfDir dw1 := by
  induction rels with
  | nil => exact fun dw h => ⟨[], dw, rfl, rfl, h⟩
  | cons rel rest ih =>
    intro dw h
    obtain ⟨b, w1, hsf, hl1, hn1⟩ := sync_file_auto_total cfg (ff rel) em (pairWorld dw rel)
      (lookupFile_statErr h.1 rel) (lookupFile_statErr h.2 rel)
    have hwf1 : wfDir (writeBack dw rel w1) :=
      ⟨wfFiles_setFileIfChanged h.1 hl1, wfFiles_setFileIfChanged h.2 hn1⟩
    obtain ⟨tr, dwf, hwalk, hmap, hwff⟩ := ih (writeBack dw rel w1) hwf1
    refine ⟨(rel, classifyDelta dw.stats w1.stats) :: tr, dwf, ?_, by simp [hmap], hwff⟩
    simp only [sync_walk, hsf, hwalk]

/-- **C6.** Copy-step error isolation: an I/O failure during the upload or
download copy step (the destination mkdir included) is caught inside
`_sync_file`, bumps exactly the error counter, leaves both files'
recorded states unchanged, and does not propagate — and consequently a
tree walk over well-formed sides always completes, processing every
relative path of the union, whatever copy faults are injected. -/
theorem c6_copy_error_isolated :
    (∀ (cfg : Config) (f : Faults) (em : Option String) (w : World),
      cfg.dry_run = false → w.local_file.file_exists = true →
      w.local_file.statErr = false →
      (f.upload_mkdir_fails = true ∨ f.upload_copy_fails = true) →
      ∃ w1, sync_file cfg f "upload" em w = .ok (false, w1) ∧
        w1.stats.errors = w.stats.errors + 1 ∧
        w1.stats.uploaded = w.stats.uploaded ∧
        w1.stats.downloaded = w.stats.downloaded ∧
        w1.stats.skipped = w.stats.skipped ∧
        w1.local_file = w.local_file ∧ w1.nas_file = w.nas_file) ∧
    (∀ (cfg : Config) (f : Faults) (em : Option String) (w : World),
      cfg.dry_run = false → w.nas_file.file_exists = true →
      w.nas_file.statErr = false →
      (f.download_mkdir_fails = true ∨ f.download_copy_fails = true) →
      ∃ w1, sync_file cfg f "download" em w = .ok (false, w1) ∧
        w1.stats.errors = w.stats.errors + 1 ∧
        w1.stats.uploaded = w.stats.uploaded ∧
        w1.stats.downloaded = w.stats.downloaded ∧
        w1.stats.skipped = w.stats.skipped ∧
        w1.local_file = w.local_file ∧ w1.nas_file = w.nas_file) ∧
    (∀ (cfg : Config) (ff : String → Faults) (em : Option String)
      (rels : List String) (dw : DirWorld), wfDir dw →
      ∃ tr dw1, sync_walk cfg ff em rels dw = .ok (tr, dw1) ∧
        tr.map Prod.fst = rels) := by
  refine ⟨?_, ?_, ?_⟩
  · intro cfg f em w hdry hl hls hf
    obtain ⟨hbl, hbn, hbu, hbd, hbs, hbe, hbb⟩ :=
      create_monthly_backup_frame cfg f (em.getD "") w
    rcases hf with hf | hf <;> by_cases hf2 : f.upload_mkdir_fails <;>
      simp_all [sync_file, sync_execute, hdry, hl, hls] <;>
      split_ifs <;> simp_all
  · intro cfg f em w hdry hn hns hf
    rcases hf with hf | hf <;> by_cases hf2 : f.download_mkdir_fails <;>
      simp_all [sync_file, sync_execute, hdry, hn, hns]
  · intro cfg ff em rels dw hwf
    obtain ⟨tr, dw1, hw, hm, _⟩ := sync_walk_total cfg ff em rels dw hwf
    exact ⟨tr, dw1, hw, hm⟩

/-- Witness for C6: a failing upload copy at a concrete pair, a failing
download mkdir at a concrete pair, and a completed two-file walk under
an everywhere-failing copy fault. -/
theorem c6_copy_error_isolated_witness :
    (∃ w1, sync_file ⟨false, true, true⟩ ⟨false, false, false, true, false, false⟩
        "upload" (some "PCSX2")
        ⟨⟨true, 9, 4, false⟩, ⟨true, 3, 2, false⟩, false, ⟨0, 0, 0, 0, 0⟩, []⟩ =
        .ok (false, w1) ∧
      w1.stats.errors = 1 ∧ w1.stats.uploaded = 0 ∧ w1.stats.downloaded = 0 ∧
      w1.stats.skipped = 0 ∧
      w1.local_file = ⟨true, 9, 4, false⟩ ∧ w1.nas_file = ⟨true, 3, 2, false⟩) ∧
    (∃ w1, sync_file ⟨false, true, true⟩ ⟨false, false, false, false, true, false⟩
        "download" (some "PCSX2")
        ⟨absentFile, ⟨true, 3, 2, false⟩, false, ⟨0, 0, 0, 0, 0⟩, []⟩ =
        .ok (false, w1) ∧
      w1.stats.errors = 1 ∧ w1.stats.uploaded = 0 ∧ w1.stats.downloaded = 0 ∧
      w1.stats.skipped = 0 ∧
      w1.local_file = absentFile ∧ w1.nas_file = ⟨true, 3, 2, false⟩) ∧
    (∃ tr dw1, sync_walk ⟨false, true, true⟩
        (fun _ => ⟨false, false, false, true, false, true⟩) (some "PCSX2")
        ["a.sav", "b.sav"]
        ⟨⟨true, [("a.sav", ⟨true, 9, 4, false⟩)]⟩, ⟨true, [("b.sav", ⟨true, 3, 2, false⟩)]⟩,
          [], ⟨0, 0, 0, 0, 0⟩, []⟩ = .ok (tr, dw1) ∧
      tr.map Prod.fst = ["a.sav", "b.sav"]) :=
  ⟨c6_copy_error_isolated.1 ⟨false, true, true⟩ ⟨false, false, false, true, false, false⟩
      (some "PCSX2") ⟨⟨true, 9, 4, false⟩, ⟨true, 3, 2, false⟩, false, ⟨0, 0, 0, 0, 0⟩, []⟩
      rfl rfl rfl (Or.inr rfl),
   c6_copy_error_isolated.2.1 ⟨false, true, true⟩ ⟨false, false, false, false, true, false⟩
      (some "PCSX2") ⟨absentFile, ⟨true, 3, 2, false⟩, false, ⟨0, 0, 0, 0, 0⟩, []⟩
      rfl rfl rfl (Or.inl rfl),
   c6_copy_error_isolated.2.2 ⟨false, true, true⟩
      (fun _ => ⟨false, false, false, true, false, true⟩) (some "PCSX2")
      ["a.sav", "b.sav"]
      ⟨⟨true, [("a.sav", ⟨true, 9, 4, false⟩)]⟩, ⟨true, [("b.sav", ⟨true, 3, 2, false⟩)]⟩,
        [], ⟨0, 0, 0, 0, 0⟩, []⟩
      (by constructor <;> simp [wfFiles])⟩

/-! ## Dry-run versus live equivalence -/

/-- Dry and live snapshotter invocations on pairs that agree everywhere
except the journal agree on the `created` result and on statistics; the
dry one changes nothing else. -/
theorem create_monthly_backup_dry_live (cfg : Config) (em : String) (w : World)
    (mL : List Mut) (hns : w.nas_file.statErr = false) :
    ∃ bB wbD wbL,
      create_monthly_backup { cfg with dry_run := true } noFaults em w = (bB, wbD) ∧
      create_monthly_backup { cfg with dry_run := false } noFaults em
        { w with mutations := mL } = (bB, wbL) ∧
      wbD.stats = wbL.stats ∧
      wbD.local_file = w.local_file ∧ wbD.nas_file = w.nas_file ∧
      wbD.backup_file_exists = w.backup_file_exists ∧ wbD.mutations = w.mutations ∧
      wbL.local_file = w.local_file ∧ wbL.nas_file = w.nas_file := by
  unfold create_monthly_backup
  simp only [noFaults, hns]
  split_ifs <;>
    first
      | exact ⟨_, _, _, rfl, rfl, rfl, rfl, rfl, rfl, rfl, rfl, rfl⟩
      | simp_all

/-- Dry and live upload execution on pairs that agree everywhere except
the journal: both report success and count one upload (plus identical
backup accounting); the dry run leaves the world unchanged apart from
statistics. -/
theorem sync_execute_dry_live_upload (cfg : Config) (em : Option String) (w : World)
    (mL : List Mut)
    (hle : w.local_file.file_exists = true) (hls : w.local_file.statErr = false)
    (hns : w.nas_file.statErr = false) :
    ∃ wD1 wL1,
      sync_execute { cfg with dry_run := true } noFaults em "upload" w = (true, wD1) ∧
      sync_execute { cfg with dry_run := false } noFaults em "upload"
        { w with mutations := mL } = (true, wL1) ∧
      wD1.stats = wL1.stats ∧
      wD1.local_file = w.local_file ∧ wD1.nas_file = w.nas_file ∧
      wD1.backup_file_exists = w.backup_file_exists ∧ wD1.mutations = w.mutations ∧
      wL1.local_file.statErr = false ∧ wL1.nas_file.statErr = false := by
  obtain ⟨bB, wbD, wbL, hBD, hBL, hBs, hBl, hBn, hBb, hBm, hBLl, hBLn⟩ :=
    create_monthly_backup_dry_live cfg (em.getD "") w mL hns
  unfold sync_execute
  dsimp only
  rw [hBD, hBL]
  simp only [noFaults, hBLl, hBl, hle, hls, Bool.not_true, Bool.not_false,
    Bool.false_or, Bool.or_false, Bool.or_self]
  split_ifs <;>
    first
      | (refine ⟨_, _, rfl, rfl, ?_, ?_, ?_, ?_, ?_, ?_, ?_⟩ <;> simp_all)
      | simp_all

/-- Dry and live download execution on pairs that agree everywhere except
the journal. -/
theorem sync_execute_dry_live_download (cfg : Config) (em : Option String) (w : World)
    (mL : List Mut)
    (hne : w.nas_file.file_exists = true) (hls : w.local_file.statErr = false)
    (hns : w.nas_file.statErr = false) :
    ∃ wD1 wL1,
      sync_execute { cfg with dry_run := true } noFaults em "download" w = (true, wD1) ∧
      sync_execute { cfg with dry_run := false } noFaults em "download"
        { w with mutations := mL } = (true, wL1) ∧
      wD1.stats = wL1.stats ∧
      wD1.local_file = w.local_file ∧ wD1.nas_file = w.nas_file ∧
      wD1.backup_file_exists = w.backup_file_exists ∧ wD1.mutations = w.mutations ∧
      wL1.local_file.statErr = false ∧ wL1.nas_file.statErr = false := by
  unfold sync_execute
  dsimp only
  simp only [noFaults, hns, hne, Bool.not_true, Bool.not_false,
    Bool.false_or, Bool.or_false, Bool.or_self]
  split_ifs <;>
    first
      | (refine ⟨_, _, rfl, rfl, ?_, ?_, ?_, ?_, ?_, ?_, ?_⟩ <;> simp_all)
      | simp_all

/-- Dry and live Auto reconciliation of pairs that agree everywhere except
the journal produce the same boolean result and the same statistics; the
dry run leaves everything but statistics unchanged. -/
theorem sync_file_dry_live (cfg : Config) (em : Option String) (w : World) (mL : List Mut)
    (hls : w.local_file.statErr = false) (hns : w.nas_file.statErr = false) :
    ∃ b wD1 wL1,
      sync_file { cfg with dry_run := true } noFaults "auto" em w = .ok (b, wD1) ∧
      sync_file { cfg with dry_run := false } noFaults "auto" em
        { w with mutations := mL } = .ok (b, wL1) ∧
      wD1.stats = wL1.stats ∧
      wD1.local_file = w.local_file ∧ wD1.nas_file = w.nas_file ∧
      wD1.backup_file_exists = w.backup_file_exists ∧ wD1.mutations = w.mutations ∧
      wL1.local_file.statErr = false ∧ wL1.nas_file.statErr = false := by
  by_cases hle : w.local_file.file_exists = true <;>
    by_cases hne : w.nas_file.file_exists = true
  · rcases lt_trichotomy w.nas_file.mtime w.local_file.mtime with hm | hm | hm
    · have hm2 : ¬w.local_file.mtime < w.nas_file.mtime := not_lt.mpr (le_of_lt hm)
      obtain ⟨wD1, wL1, h1, h2, hrest⟩ :=
        sync_execute_dry_live_upload cfg em w mL hle hls hns
      exact ⟨true, wD1, wL1,
        by simp [sync_file, hle, hne, get_file_mtime, hls, hns, hm, hm2, h1],
        by simp [sync_file, hle, hne, get_file_mtime, hls, hns, hm, hm2, h2], hrest⟩
    · refine ⟨false,
        ({ w with stats := { w.stats with skipped := w.stats.skipped + 1 } } : World),
        ({ w with
            stats := { w.stats with skipped := w.stats.skipped + 1 },
            mutations := mL } : World),
        by simp [sync_file, hle, hne, get_file_mtime, hls, hns, hm],
        by simp [sync_file, hle, hne, get_file_mtime, hls, hns, hm],
        rfl, rfl, rfl, rfl, rfl, hls, hns⟩
    · have hm2 : ¬w.nas_file.mtime < w.local_file.mtime := not_lt.mpr (le_of_lt hm)
      obtain ⟨wD1, wL1, h1, h2, hrest⟩ :=
        sync_execute_dry_live_download cfg em w mL hne hls hns
      exact ⟨true, wD1, wL1,
        by simp [sync_file, hle, hne, get_file_mtime, hls, hns, hm, hm2, h1],
        by simp [sync_file, hle, hne, get_file_mtime, hls, hns, hm, hm2, h2], hrest⟩
  · obtain ⟨wD1, wL1, h1, h2, hrest⟩ :=
      sync_execute_dry_live_upload cfg em w mL hle hls hns
    exact ⟨true, wD1, wL1,
      by simp [sync_file, hle, hne, h1],
      by simp [sync_file, hle, hne, h2], hrest⟩
  · obtain ⟨wD1, wL1, h1, h2, hrest⟩ :=
      sync_execute_dry_live_download cfg em w mL hne hls hns
    exact ⟨true, wD1, wL1,
      by simp [sync_file, hle, hne, h1],
      by simp [sync_file, hle, hne, h2], hrest⟩
  · refine ⟨false, w, { w with mutations := mL },
      by simp [sync_file, hle, hne],
      by simp [sync_file, hle, hne],
      rfl, rfl, rfl, rfl, rfl, hls, hns⟩

/-- A write-back whose pair components did not change only replaces the
statistics and journal of the directory state. -/
theorem writeBack_self (dw : DirWorld) (rel : String) (w1 : World)
    (hf1 : w1.local_file = lookupFile dw.local_side.files rel)
    (hf2 : w1.nas_file = lookupFile dw.nas_side.files rel)
    (hf3 : w1.backup_file_exists = decide (rel ∈ dw.backup_exists)) :
    writeBack dw rel w1 = { dw with stats := w1.stats, mutations := w1.mutations } := by
  unfold writeBack setFileIfChanged
  by_cases hmem : rel ∈ dw.backup_exists <;>
    simp [hf1, hf2, hf3, hmem]

theorem mem_writeBack_backup_ne {dw : DirWorld} {rel r : String} {w1 : World}
    (h : r ≠ rel) :
    r ∈ (writeBack dw rel w1).backup_exists ↔ r ∈ dw.backup_exists := by
  unfold writeBack
  dsimp only
  split_ifs <;> simp [h]

/-- Walk-level dry-run equivalence: over nodup relative paths, with no
injected faults and well-formed sides, the dry and the live walk agree
on the whole outcome trace and on final statistics, and the dry walk
changes nothing but statistics. -/
theorem sync_walk_dry_live (cfg : Config) (em : Option String) (rels : List String) :
    ∀ dwD dwL : DirWorld,
      rels.Nodup → wfDir dwD →
      dwL.stats = dwD.stats →
      (∀ r ∈ rels,
        lookupFile dwL.local_side.files r = lookupFile dwD.local_side.files r ∧
        lookupFile dwL.nas_side.files r = lookupFile dwD.nas_side.files r ∧
        (r ∈ dwL.backup_exists ↔ r ∈ dwD.backup_exists)) →
      ∃ tr dwD1 dwL1,
        sync_walk { cfg with dry_run := true } (fun _ => noFaults) em rels dwD =
          .ok (tr, dwD1) ∧
        sync_walk { cfg with dry_run := false } (fun _ => noFaults) em rels dwL =
          .ok (tr, dwL1) ∧
        dwD1.stats = dwL1.stats ∧
        dwD1.local_side = dwD.local_side ∧ dwD1.nas_side = dwD.nas_side ∧
        dwD1.backup_exists = dwD.backup_exists ∧ dwD1.mutations = dwD.mutations := by
  induction rels with
  | nil => exact fun dwD dwL _ _ hst _ => ⟨[], dwD, dwL, rfl, rfl, hst.symm, rfl, rfl, rfl, rfl⟩
  | cons rel rest ih =>
    intro dwD dwL hnd hwf hst hlk
    obtain ⟨hlk1, hlk2, hlk3⟩ := hlk rel (List.mem_cons_self rel rest)
    have hpair : pairWorld dwL rel = { pairWorld dwD rel with mutations := dwL.mutations } := by
      unfold pairWorld
      simp only [hlk1, hlk2, hst, decide_eq_decide.mpr hlk3]
    obtain ⟨b, wD1, wL1, hD, hL, hs1, hf1, hf2, hf3, hf4, hse1, hse2⟩ :=
      sync_file_dry_live cfg em (pairWorld dwD rel) dwL.mutations
        (lookupFile_statErr hwf.1 rel) (lookupFile_statErr hwf.2 rel)
    have hLpair : sync_file { cfg with dry_run := false } noFaults "auto" em
        (pairWorld dwL rel) = .ok (b, wL1) := by
      rw [hpair]
      exact hL
    have hDW : writeBack dwD rel wD1 = { dwD with stats := wD1.stats, mutations := wD1.mutations } :=
      writeBack_self dwD rel wD1 hf1 hf2 hf3
    have hrelrest : rel ∉ rest := (List.nodup_cons.mp hnd).1
    have hndr : rest.Nodup := (List.nodup_cons.mp hnd).2
    have hwf2 : wfDir ({ dwD with stats := wD1.stats, mutations := wD1.mutations } : DirWorld) := hwf
    have hlk4 : ∀ r ∈ rest,
        lookupFile (writeBack dwL rel wL1).local_side.files r =
          lookupFile ({ dwD with stats := wD1.stats, mutations := wD1.mutations } :
            DirWorld).local_side.files r ∧
        lookupFile (writeBack dwL rel wL1).nas_side.files r =
          lookupFile ({ dwD with stats := wD1.stats, mutations := wD1.mutations } :
            DirWorld).nas_side.files r ∧
        (r ∈ (writeBack dwL rel wL1).backup_exists ↔
          r ∈ ({ dwD with stats := wD1.stats, mutations := wD1.mutations } :
            DirWorld).backup_exists) := by
      intro r hr
      have hne : r ≠ rel := fun hcontra => hrelrest (hcontra ▸ hr)
      obtain ⟨ha, hb2, hc⟩ := hlk r (List.mem_cons_of_mem rel hr)
      refine ⟨?_, ?_, ?_⟩
      · rw [show (writeBack dwL rel wL1).local_side.files =
            setFileIfChanged dwL.local_side.files rel wL1.local_file from rfl]
        rw [lookupFile_setFileIfChanged_ne _ _ _ _ hne]
        exact ha
      · rw [show (writeBack dwL rel wL1).nas_side.files =
            setFileIfChanged dwL.nas_side.files rel wL1.nas_file from rfl]
        rw [lookupFile_setFileIfChanged_ne _ _ _ _ hne]
        exact hb2
      · exact (mem_writeBack_backup_ne hne).trans hc
    have hst2 : (writeBack dwL rel wL1).stats =
        ({ dwD with stats := wD1.stats, mutations := wD1.mutations } : DirWorld).stats := by
      show wL1.stats = wD1.stats
      exact hs1.symm
    obtain ⟨tr, dwDf, dwLf, hWD, hWL, hfs, hfl, hfn, hfb, hfm⟩ :=
      ih { dwD with stats := wD1.stats, mutations := wD1.mutations }
        (writeBack dwL rel wL1) hndr hwf2 hst2 hlk4
    refine ⟨(rel, classifyDelta dwD.stats wD1.stats) :: tr, dwDf, dwLf, ?_, ?_,
      hfs, hfl, hfn, hfb, by rw [hfm]; exact hf4⟩
    · simp only [sync_walk, hD, hDW, hWD]
    · have hcd : classifyDelta dwL.stats wL1.stats = classifyDelta dwD.stats wD1.stats := by
        rw [hst, hs1]
      simp only [sync_walk, hLpair, hWL, hcd]

/-- **C3.** Dry-run equivalence at the tree level: over a well-formed
directory state with no injected faults, a dry-run reconciliation and a
live reconciliation produce the same outcome trace (same Outcome per
relative path, in the same order) and the same final statistics, while
the dry run leaves both sides, every backup cell and the mutation
journal exactly as they were. -/
theorem c3_dry_run_equivalence (cfg : Config) (recursive : Bool)
    (exts : Option (List String)) (em : Option String) (dw : DirWorld)
    (hwf : wfDir dw) :
    ∃ tr dwD1 dwL1,
      sync_directory { cfg with dry_run := true } (fun _ => noFaults) recursive exts em dw =
        .ok (tr, dwD1) ∧
      sync_directory { cfg with dry_run := false } (fun _ => noFaults) recursive exts em dw =
        .ok (tr, dwL1) ∧
      dwD1.stats = dwL1.stats ∧
      dwD1.local_side = dw.local_side ∧ dwD1.nas_side = dw.nas_side ∧
      dwD1.backup_exists = dw.backup_exists ∧ dwD1.mutations = dw.mutations := by
  exact sync_walk_dry_live cfg em (all_files dw recursive exts) dw dw
    (all_files_nodup dw recursive exts) hwf rfl (fun r _ => ⟨rfl, rfl, Iff.rfl⟩)

/-- Witness for C3 at a concrete two-sided directory state. -/
theorem c3_dry_run_equivalence_witness :
    ∃ tr dwD1 dwL1,
      sync_directory (⟨true, true, true⟩ : Config) (fun _ => noFaults) true none
        (some "PCSX2")
        ⟨⟨true, [("s1.sav", ⟨true, 10, 7, false⟩), ("s3.sav", ⟨true, 4, 7, false⟩)]⟩,
         ⟨true, [("s1.sav", ⟨true, 5, 7, false⟩), ("s2.sav", ⟨true, 5, 7, false⟩)]⟩,
         [], ⟨0, 0, 0, 0, 0⟩, []⟩ = .ok (tr, dwD1) ∧
      sync_directory (⟨false, true, true⟩ : Config) (fun _ => noFaults) true none
        (some "PCSX2")
        ⟨⟨true, [("s1.sav", ⟨true, 10, 7, false⟩), ("s3.sav", ⟨true, 4, 7, false⟩)]⟩,
         ⟨true, [("s1.sav", ⟨true, 5, 7, false⟩), ("s2.sav", ⟨true, 5, 7, false⟩)]⟩,
         [], ⟨0, 0, 0, 0, 0⟩, []⟩ = .ok (tr, dwL1) ∧
      dwD1.stats = dwL1.stats ∧
      dwD1.local_side =
        ⟨true, [("s1.sav", ⟨true, 10, 7, false⟩), ("s3.sav", ⟨true, 4, 7, false⟩)]⟩ ∧
      dwD1.nas_side =
        ⟨true, [("s1.sav", ⟨true, 5, 7, false⟩), ("s2.sav", ⟨true, 5, 7, false⟩)]⟩ ∧
      dwD1.backup_exists = [] ∧ dwD1.mutations = [] :=
  c3_dry_run_equivalence ⟨false, true, true⟩ true none (some "PCSX2")
    ⟨⟨true, [("s1.sav", ⟨true, 10, 7, false⟩), ("s3.sav", ⟨true, 4, 7, false⟩)]⟩,
     ⟨true, [("s1.sav", ⟨true, 5, 7, false⟩), ("s2.sav", ⟨true, 5, 7, false⟩)]⟩,
     [], ⟨0, 0, 0, 0, 0⟩, []⟩
    (by constructor <;> simp [wfFiles])

/-! ## Extension filtering -/

theorem char_toNat_ofNat {n : Nat} (h : n.isValidChar) : (Char.ofNat n).toNat = n := by
  rw [Char.ofNat, dif_pos h]
  rfl

theorem char_toLower_idem (c : Char) : c.toLower.toLower = c.toLower := by
  show Char.toLower (Char.toLower c) = Char.toLower c
  by_cases h : c.toNat ≥ 65 ∧ c.toNat ≤ 90
  · have hv : Nat.isValidChar (c.toNat + 32) := Or.inl (by omega)
    have ht : (Char.ofNat (c.toNat + 32)).toNat = c.toNat + 32 := char_toNat_ofNat hv
    unfold Char.toLower
    rw [if_pos h, ht, if_neg (by omega)]
  · unfold Char.toLower
    rw [if_neg h, if_neg h]

theorem lowerStr_idem (s : String) : lowerStr (lowerStr s) = lowerStr s := by
  have hl : ∀ l : List Char, l.map (Char.toLower ∘ Char.toLower) = l.map Char.toLower := by
    intro l
    induction l with
    | nil => rfl
    | cons c cs ih => simp [ih, Function.comp, char_toLower_idem]
  unfold lowerStr
  simp only [List.map_map]
  exact congrArg String.mk (hl s.data)

/-- A relative path whose extension matches no allow-list entry even up to
ASCII case fails the reconciler's filter test. -/
theorem extOk_false_of_lower_ne {exts : List String} {rel : String}
    (hext : ∀ e ∈ exts, lowerStr (pathSuffix rel) ≠ lowerStr e) :
    extOk (some exts) rel = false := by
  unfold extOk
  simp only [decide_eq_false_iff_not]
  intro hmem
  exact hext _ hmem (lowerStr_idem (pathSuffix rel)).symm

theorem extOk_of_mem_enumSide {side : DirSide} {recursive : Bool}
    {exts : Option (List String)} {rel : String}
    (h : rel ∈ enumSide side recursive exts) : extOk exts rel = true := by
  unfold enumSide at h
  split_ifs at h
  · cases h
  · rcases List.mem_map.mp h with ⟨e, he, rfl⟩
    rcases List.mem_filter.mp he with ⟨hmem, hp⟩
    exact ((Bool.and_eq_true _ _).mp hp).2

/-- Remove every entry of a side stored under one relative path. -/
def dropRel (files : List (String × FileSt)) (rel : String) : List (String × FileSt) :=
  files.filter (fun e => decide (e.1 ≠ rel))

theorem lookupFile_dropRel_ne (files : List (String × FileSt)) (rel r : String)
    (h : r ≠ rel) : lookupFile (dropRel files rel) r = lookupFile files r := by
  induction files with
  | nil => rfl
  | cons e l ih =>
    by_cases he : e.1 = rel
    · have her : ¬e.1 = r := fun hc => h (hc ▸ he)
      simp_all [dropRel, lookupFile, he]
    · by_cases her : e.1 = r <;> simp_all [dropRel, lookupFile]

theorem enumSide_dropRel (side : DirSide) (recursive : Bool) (exts : List String)
    (rel : String) (hx : extOk (some exts) rel = false) :
    enumSide ⟨side.dir_exists, dropRel side.files rel⟩ recursive (some exts) =
      enumSide side recursive (some exts) := by
  unfold enumSide dropRel
  by_cases hd : side.dir_exists <;> simp only [hd, Bool.not_true, Bool.not_false]
  · rw [List.filter_filter]
    apply congrArg (List.map Prod.fst)
    apply List.filter_congr
    intro e he
    by_cases her : e.1 = rel
    · simp [her, hx]
    · simp [her]
  · rfl

/-- Observable agreement between two tree-walk results: identical traces
(when both complete) and identical statistics and journal growth. -/
def walkRel : Except DirWorld (List (String × Outcome) × DirWorld) →
    Except DirWorld (List (String × Outcome) × DirWorld) → Prop
  | .error d1, .error d2 => d1.stats = d2.stats
  | .ok (t1, d1), .ok (t2, d2) => t1 = t2 ∧ d1.stats = d2.stats ∧ d1.mutations = d2.mutations
  | _, _ => False

/-- Walks over the same nodup path list starting from directory states
that agree on every listed pair, on statistics and on the journal are
observably equal. -/
theorem sync_walk_congr (cfg : Config) (ff : String → Faults) (em : Option String)
    (rels : List String) :
    ∀ dw1 dw2 : DirWorld, rels.Nodup →
      dw1.stats = dw2.stats → dw1.mutations = dw2.mutations →
      (∀ r ∈ rels,
        lookupFile dw1.local_side.files r = lookupFile dw2.local_side.files r ∧
        lookupFile dw1.nas_side.files r = lookupFile dw2.nas_side.files r ∧
        (r ∈ dw1.backup_exists ↔ r ∈ dw2.backup_exists)) →
      walkRel (sync_walk cfg ff em rels dw1) (sync_walk cfg ff em rels dw2) := by
  induction rels with
  | nil =>
    intro dw1 dw2 _ hs hm _
    exact ⟨rfl, hs, hm⟩
  | cons rel rest ih =>
    intro dw1 dw2 hnd hs hm hlk
    have hpair : pairWorld dw1 rel = pairWorld dw2 rel := by
      obtain ⟨h1, h2, h3⟩ := hlk rel (List.mem_cons_self _ _)
      unfold pairWorld
      rw [h1, h2, hs, hm, decide_eq_decide.mpr h3]
    have hrelrest : rel ∉ rest := (List.nodup_cons.mp hnd).1
    simp only [sync_walk, hpair]
    cases hres : sync_file cfg (ff rel) "auto" em (pairWorld dw2 rel) with
    | error w =>
      dsimp only
      exact hs
    | ok bw =>
      obtain ⟨b, w⟩ := bw
      dsimp only
      have hlk2 : ∀ r ∈ rest,
          lookupFile (writeBack dw1 rel w).local_side.files r =
            lookupFile (writeBack dw2 rel w).local_side.files r ∧
          lookupFile (writeBack dw1 rel w).nas_side.files r =
            lookupFile (writeBack dw2 rel w).nas_side.files r ∧
          (r ∈ (writeBack dw1 rel w).backup_exists ↔
            r ∈ (writeBack dw2 rel w).backup_exists) := by
        intro r hr
        have hne : r ≠ rel := fun hc => hrelrest (hc ▸ hr)
        obtain ⟨ha, hb2, hc⟩ := hlk r (List.mem_cons_of_mem rel hr)
        refine ⟨?_, ?_, ?_⟩
        · rw [show (writeBack dw1 rel w).local_side.files =
              setFileIfChanged dw1.local_side.files rel w.local_file from rfl,
            show (writeBack dw2 rel w).local_side.files =
              setFileIfChanged dw2.local_side.files rel w.local_file from rfl,
            lookupFile_setFileIfChanged_ne _ _ _ _ hne,
            lookupFile_setFileIfChanged_ne _ _ _ _ hne]
          exact ha
        · rw [show (writeBack dw1 rel w).nas_side.files =
              setFileIfChanged dw1.nas_side.files rel w.nas_file from rfl,
            show (writeBack dw2 rel w).nas_side.files =
              setFileIfChanged dw2.nas_side.files rel w.nas_file from rfl,
            lookupFile_setFileIfChanged_ne _ _ _ _ hne,
            lookupFile_setFileIfChanged_ne _ _ _ _ hne]
          exact hb2
        · exact ((mem_writeBack_backup_ne hne).trans hc).trans
            (mem_writeBack_backup_ne hne).symm
      have hrest := ih (writeBack dw1 rel w) (writeBack dw2 rel w)
        (List.nodup_cons.mp hnd).2 rfl rfl hlk2
      cases h1 : sync_walk cfg ff em rest (writeBack dw1 rel w) with
      | error d1 =>
        cases h2 : sync_walk cfg ff em rest (writeBack dw2 rel w) with
        | error d2 =>
          rw [h1, h2] at hrest
          dsimp only
          exact hrest
        | ok p2 =>
          obtain ⟨t2, d2⟩ := p2
          rw [h1, h2] at hrest
          exact False.elim hrest
      | ok p1 =>
        obtain ⟨t1, d1⟩ := p1
        cases h2 : sync_walk cfg ff em rest (writeBack dw2 rel w) with
        | error d2 =>
          rw [h1, h2] at hrest
          exact False.elim hrest
        | ok p2 =>
          obtain ⟨t2, d2⟩ := p2
          rw [h1, h2] at hrest
          dsimp only
          show _ ∧ _ ∧ _
          exact ⟨by rw [hrest.1, hs], hrest.2.1, hrest.2.2⟩

/-- A completed walk reports one outcome per relative path, in order. -/
theorem sync_walk_trace_keys (cfg : Config) (ff : String → Faults) (em : Option String)
    (rels : List String) :
    ∀ dw tr dw1, sync_walk cfg ff em rels dw = .ok (tr, dw1) →
      tr.map Prod.fst = rels := by
  induction rels with
  | nil =>
    intro dw tr dw1 h
    simp only [sync_walk, Except.ok.injEq, Prod.mk.injEq] at h
    rw [← h.1]
    rfl
  | cons rel rest ih =>
    intro dw tr dw1 h
    simp only [sync_walk] at h
    cases hres : sync_file cfg (ff rel) "auto" em (pairWorld dw rel) with
    | error w =>
      rw [hres] at h
      cases h
    | ok bw =>
      obtain ⟨b, w⟩ := bw
      rw [hres] at h
      dsimp only at h
      cases h2 : sync_walk cfg ff em rest (writeBack dw rel w) with
      | error d =>
        rw [h2] at h
        cases h
      | ok p =>
        obtain ⟨tr2, d2⟩ := p
        rw [h2] at h
        simp only [Except.ok.injEq, Prod.mk.injEq] at h
        rw [← h.1]
        simp [ih (writeBack dw rel w) tr2 d2 h2]

/-- **C5.** With a non-empty extension allow-list, a file present on only
one side whose extension matches no list entry even case-insensitively
is excluded from the enumerated union: it appears in no completed
trace (no Outcome), and the whole reconciliation is observably
identical (same trace, same final statistics, same journal) to the
reconciliation of the state with that file removed from both sides. -/
theorem c5_extension_filtered_excluded (cfg : Config) (ff : String → Faults)
    (recursive : Bool) (exts : List String) (em : Option String) (rel : String)
    (dw : DirWorld)
    (hext : ∀ e ∈ exts, lowerStr (pathSuffix rel) ≠ lowerStr e)
    (hone : (lookupFile dw.local_side.files rel ≠ absentFile ∧
              lookupFile dw.nas_side.files rel = absentFile) ∨
            (lookupFile dw.local_side.files rel = absentFile ∧
              lookupFile dw.nas_side.files rel ≠ absentFile)) :
    rel ∉ all_files dw recursive (some exts) ∧
    (∀ tr dw1,
      sync_directory cfg ff recursive (some exts) em dw = .ok (tr, dw1) →
      rel ∉ tr.map Prod.fst) ∧
    walkRel (sync_directory cfg ff recursive (some exts) em dw)
      (sync_directory cfg ff recursive (some exts) em
        { dw with
          local_side := ⟨dw.local_side.dir_exists, dropRel dw.local_side.files rel⟩,
          nas_side := ⟨dw.nas_side.dir_exists, dropRel dw.nas_side.files rel⟩ }) := by
  have hx : extOk (some exts) rel = false := extOk_false_of_lower_ne hext
  have hmem : rel ∉ all_files dw recursive (some exts) := by
    intro hmem
    rcases mem_all_files.mp hmem with h | h <;>
      exact absurd (extOk_of_mem_enumSide h) (by simp [hx])
  refine ⟨hmem, ?_, ?_⟩
  · intro tr dw1 hrun hin
    have hkeys := sync_walk_trace_keys cfg ff em
      (all_files dw recursive (some exts)) dw tr dw1 hrun
    rw [hkeys] at hin
    exact hmem hin
  · have henuml : enumSide ⟨dw.local_side.dir_exists, dropRel dw.local_side.files rel⟩
        recursive (some exts) = enumSide dw.local_side recursive (some exts) :=
      enumSide_dropRel dw.local_side recursive exts rel hx
    have henumn : enumSide ⟨dw.nas_side.dir_exists, dropRel dw.nas_side.files rel⟩
        recursive (some exts) = enumSide dw.nas_side recursive (some exts) :=
      enumSide_dropRel dw.nas_side recursive exts rel hx
    have hnd : (all_files dw recursive (some exts)).Nodup :=
      all_files_nodup dw recursive (some exts)
    have hlk : ∀ r ∈ all_files dw recursive (some exts),
        lookupFile dw.local_side.files r =
          lookupFile (dropRel dw.local_side.files rel) r ∧
        lookupFile dw.nas_side.files r =
          lookupFile (dropRel dw.nas_side.files rel) r ∧
        (r ∈ dw.backup_exists ↔ r ∈ dw.backup_exists) := by
      intro r hr
      have hne : r ≠ rel := fun hc => hmem (hc ▸ hr)
      exact ⟨(lookupFile_dropRel_ne _ _ _ hne).symm,
        (lookupFile_dropRel_ne _ _ _ hne).symm, Iff.rfl⟩
    have hcongr := sync_walk_congr cfg ff em (all_files dw recursive (some exts)) dw
      ({ dw with
          local_side := ⟨dw.local_side.dir_exists, dropRel dw.local_side.files rel⟩,
          nas_side := ⟨dw.nas_side.dir_exists, dropRel dw.nas_side.files rel⟩ } : DirWorld)
      hnd rfl rfl hlk
    unfold sync_directory
    have hall : all_files
        ({ dw with
            local_side := ⟨dw.local_side.dir_exists, dropRel dw.local_side.files rel⟩,
            nas_side := ⟨dw.nas_side.dir_exists, dropRel dw.nas_side.files rel⟩ } : DirWorld)
        recursive (some exts) = all_files dw recursive (some exts) := by
      unfold all_files
      dsimp only
      rw [henuml, henumn]
    rw [hall]
    exact hcongr

/-- Witness for C5: a `.bin` file present only locally under a `.sav`
allow-list. -/
theorem c5_extension_filtered_excluded_witness :
    "x.bin" ∉ all_files
      ⟨⟨true, [("a.sav", ⟨true, 9, 4, false⟩), ("x.bin", ⟨true, 8, 3, false⟩)]⟩,
       ⟨true, [("a.sav", ⟨true, 3, 2, false⟩)]⟩, [], ⟨0, 0, 0, 0, 0⟩, []⟩
      true (some [".sav"]) ∧
    (∀ tr dw1,
      sync_directory ⟨false, true, true⟩ (fun _ => noFaults) true (some [".sav"])
        (some "PCSX2")
        ⟨⟨true, [("a.sav", ⟨true, 9, 4, false⟩), ("x.bin", ⟨true, 8, 3, false⟩)]⟩,
         ⟨true, [("a.sav", ⟨true, 3, 2, false⟩)]⟩, [], ⟨0, 0, 0, 0, 0⟩, []⟩ =
        .ok (tr, dw1) →
      "x.bin" ∉ tr.map Prod.fst) ∧
    walkRel
      (sync_directory ⟨false, true, true⟩ (fun _ => noFaults) true (some [".sav"])
        (some "PCSX2")
        ⟨⟨true, [("a.sav", ⟨true, 9, 4, false⟩), ("x.bin", ⟨true, 8, 3, false⟩)]⟩,
         ⟨true, [("a.sav", ⟨true, 3, 2, false⟩)]⟩, [], ⟨0, 0, 0, 0, 0⟩, []⟩)
      (sync_directory ⟨false, true, true⟩ (fun _ => noFaults) true (some [".sav"])
        (some "PCSX2")
        { (⟨⟨true, [("a.sav", ⟨true, 9, 4, false⟩), ("x.bin", ⟨true, 8, 3, false⟩)]⟩,
           ⟨true, [("a.sav", ⟨true, 3, 2, false⟩)]⟩, [], ⟨0, 0, 0, 0, 0⟩, []⟩ : DirWorld) with
          local_side := ⟨true,
            dropRel [("a.sav", ⟨true, 9, 4, false⟩), ("x.bin", ⟨true, 8, 3, false⟩)] "x.bin"⟩,
          nas_side := ⟨true, dropRel [("a.sav", ⟨true, 3, 2, false⟩)] "x.bin"⟩ }) :=
  c5_extension_filtered_excluded ⟨false, true, true⟩ (fun _ => noFaults) true
    [".sav"] (some "PCSX2") "x.bin"
    ⟨⟨true, [("a.sav", ⟨true, 9, 4, false⟩), ("x.bin", ⟨true, 8, 3, false⟩)]⟩,
     ⟨true, [("a.sav", ⟨true, 3, 2, false⟩)]⟩, [], ⟨0, 0, 0, 0, 0⟩, []⟩
    (by decide) (Or.inl (by decide))

end RetroSaveSync
